import Mathlib

/-!
Verification development for the chat frontend of this repository.

The two verified slices are:
* the streaming response assembler of
  src/afterwon-frontend/src/components/Chat/ChatInterface.tsx
  (the onChunk switch, the module-level textBuffer, and the onComplete
  end-of-stream flush), and
* the session persistence adapter (firestoreService) and the file upload
  orchestrator (handleFileUpload).

Each definition is a shallow embedding of the corresponding TypeScript
source: strings stay strings, JS truthiness is modelled explicitly where
the source branches on it, fallible external calls are modelled in Except,
and the single-threaded event-loop execution of the chunk handler is
modelled as a left fold over the chunk list.
-/

namespace Afterwon

/-! ## Streaming response assembler (ChatInterface.tsx) -/

/-- The codeExecution field of a Message
    (interface Message, ChatInterface.tsx lines 45-50). -/
structure CodeExecution where
  codeChunks : List String
  isExecuting : Bool
  result : String
  output : String
  deriving Repr, DecidableEq

/-- Opaque JSON value attached to messages (chartData and table payloads).
    Numbers are modelled as integers: the adapter never inspects numeric
    values, it only routes them. -/
inductive Json where
  | null : Json
  | bool (b : Bool) : Json
  | num (n : Int) : Json
  | str (s : String) : Json
  | arr (xs : List Json) : Json
  | obj (kvs : List (String × Json)) : Json

/-- JavaScript truthiness of a JSON value, used where the source branches
    on a value with an if or the ?: operator. -/
def jsTruthy : Json → Bool
  | .null => false
  | .bool b => b
  | .num n => n != 0
  | .str s => s != ""
  | .arr _ => true
  | .obj _ => true

/-- The evolving assistant Message targeted by the stream
    (the fields the onChunk switch touches). -/
structure Msg where
  content : String
  codeExecution : Option CodeExecution
  chartData : Option Json
  followUpQuestions : List String
  isStreaming : Bool

/-- One event record of the unified question stream: the tagged union
    dispatched by the onChunk switch (ChatInterface.tsx lines 1030-1123). -/
inductive Chunk where
  | analysis_start (content : String)
  | step_update (content : String)
  | code_complete_display (code : String)
  | code_stream (content : String)
  | code_execution_result (content : String)
  | chart_generated (chartData : Option Json)
  | insights_generated
  | analysis_complete (chartData : Option Json)
      (followUpQuestions : Option (List String)) (codeExecution : Option CodeExecution)
  | text_stream (content : String)
  | error (content : String)

/-- chunk.code.split newline, then filter on trimmed truthiness
    (case code_complete_display, line 1090-area of the switch). -/
def splitCode (code : String) : List String :=
  (code.splitOn "\n").filter (fun line => line.trim != "")

/-- canAddText guard of the text_stream case: text may be appended unless a
    code block exists and is still executing. -/
def canAddText (m : Msg) : Bool :=
  match m.codeExecution with
  | none => true
  | some ce => !ce.isExecuting

/-- Handler state: the target message plus the closure variable textBuffer
    declared outside onChunk (line 990). -/
structure AState where
  msg : Msg
  textBuffer : String

/-- One invocation of the onChunk callback.  The top of the handler first
    accumulates every text_stream content into textBuffer (line 1009, the
    throttle constant is 0 so the early return never fires), then the
    setMessages updater runs the switch on the chunk type. -/
def processChunk (s : AState) (c : Chunk) : AState :=
  let buf := match c with
    | .text_stream t => s.textBuffer ++ t
    | _ => s.textBuffer
  let m := s.msg
  match c with
  | .analysis_start t => ⟨{ m with content := t }, buf⟩
  | .step_update t => ⟨{ m with content := t }, buf⟩
  | .code_complete_display code =>
      ⟨{ m with codeExecution := some ⟨splitCode code, true, "", ""⟩, content := "" }, buf⟩
  | .code_stream _ => ⟨m, buf⟩
  | .code_execution_result t =>
      ⟨{ m with codeExecution := m.codeExecution.map fun ce =>
          { ce with isExecuting := false, result := t, output := t } }, buf⟩
  | .chart_generated d => ⟨{ m with chartData := d }, buf⟩
  | .insights_generated => ⟨m, buf⟩
  | .analysis_complete cd fq ce =>
      let flush := m.codeExecution.isNone && buf != ""
      let m1 : Msg := if flush then { m with content := m.content ++ buf } else m
      let buf1 := if flush then "" else buf
      ⟨{ m1 with
          chartData := cd,
          followUpQuestions := fq.getD [],
          codeExecution := match ce with | some x => some x | none => m1.codeExecution,
          isStreaming := false }, buf1⟩
  | .text_stream t =>
      if canAddText m && t != "" then ⟨{ m with content := m.content ++ t }, buf⟩
      else ⟨m, buf⟩
  | .error t =>
      ⟨{ m with
          content := t,
          codeExecution := m.codeExecution.map fun ce => { ce with isExecuting := false },
          isStreaming := false }, buf⟩

/-- The initial assistant message minted before the request starts
    (initialAssistantMessage, lines 909-916). -/
def initState : AState :=
  ⟨⟨"처리 중...", none, none, [], true⟩, ""⟩

/-- Processing a whole chunk sequence in arrival order. -/
def runChunks (s : AState) (cs : List Chunk) : AState :=
  cs.foldl processChunk s

/-- The onComplete callback at end of stream: if textBuffer is nonempty it
    is appended to the message content (lines 1155-1174). -/
def finalFlush (s : AState) : Msg :=
  if s.textBuffer != "" then { s.msg with content := s.msg.content ++ s.textBuffer }
  else s.msg

/-- The message assembled from a full stream: fold the chunks, then run the
    end-of-stream flush. -/
def assemble (cs : List Chunk) : Msg :=
  finalFlush (runChunks initState cs)

/-- A code block is currently marked executing. -/
def executing (m : Msg) : Bool :=
  match m.codeExecution with
  | some ce => ce.isExecuting
  | none => false

/-- The text_stream payload carried by a chunk (empty for other variants). -/
def textOf : Chunk → String
  | .text_stream t => t
  | _ => ""

/-- Ordered concatenation of the text_stream contents of a chunk list. -/
def textConcat : List Chunk → String
  | [] => ""
  | c :: cs => textOf c ++ textConcat cs

/-- The message component of one handler step, run with an empty buffer.
    While a code block is installed this coincides with the message
    component of the real step (processChunk_eq_of_isSome below). -/
def msgStep (m : Msg) (c : Chunk) : Msg :=
  (processChunk ⟨m, ""⟩ c).msg

/-- Message evolution over a chunk list, ignoring the buffer. -/
def evolveMsg (m : Msg) (cs : List Chunk) : Msg :=
  cs.foldl msgStep m

/-! ## Session persistence adapter (firestoreService, src/unnamed/part_001)

The document store is modelled as the chat collection: an association list
from document id to document, together with the id the store would mint for
the next addDoc and a failure flag injecting the rejection of the next
store operation.  The module-level client handle db is passed explicitly as
a Bool (initialized or not).  JSON.stringify and JSON.parse are JavaScript
builtins external to this repository; they are passed as parameters, and
the round-trip contract of the builtin is assumed pointwise at the stored
values where a theorem needs it. -/

/-- Errors surfaced to callers of the adapter. -/
inductive StoreErr where
  | store : StoreErr
  | notInitialized : StoreErr
  | referenceError : StoreErr
  deriving Repr, DecidableEq

/-- In-memory table payload of a message: nested data plus passthrough
    fields (columns, filename). -/
structure TableData where
  data : Json
  columns : List String
  filename : String

/-- Table payload as held in the store: the data field is the JSON string
    written by addMessage, or a structured value if some other writer
    stored it unserialized (the reader handles both). -/
structure StoredTable where
  data : String ⊕ Json
  columns : List String
  filename : String

/-- Argument of addMessage (Omit ChatMessage id). -/
structure NewMessage where
  sessionId : String
  userId : String
  type : String
  content : String
  chartData : Option Json
  tableData : Option TableData

/-- A message element of the messages array of a chat document. -/
structure StoredMessage where
  id : String
  sessionId : String
  userId : String
  type : String
  content : String
  chartData : Option (String ⊕ Json)
  tableData : Option StoredTable
  timestamp : Nat

/-- A message as returned by getMessages: chart payload deserialized,
    table payload deserialized when possible. -/
structure ProcMessage where
  id : String
  sessionId : String
  userId : String
  type : String
  content : String
  chartData : Option Json
  tableData : Option StoredTable
  timestamp : Nat

/-- One document of the chat collection. -/
structure SessionDoc where
  userId : String
  title : String
  status : Option String
  messages : List StoredMessage
  createdAt : Nat
  updatedAt : Nat

/-- The external document store: the chat collection keyed by document id,
    the id minted by the next addDoc, and whether the next store operation
    fails (rejects). -/
structure Firestore where
  chat : List (String × SessionDoc)
  nextId : String
  fail : Bool

/-- JavaScript truthiness of a stored chart or table data value. -/
def storedTruthy : String ⊕ Json → Bool
  | .inl s => s != ""
  | .inr j => jsTruthy j

/-- Document lookup by id (getDoc on the chat collection). -/
def findDoc : List (String × SessionDoc) → String → Option SessionDoc
  | [], _ => none
  | p :: l, sid => if p.1 = sid then some p.2 else findDoc l sid

/-- Whole-document write at an existing id (setDoc with merge, here used
    only to replace the fields the service rewrites). -/
def replaceDoc : List (String × SessionDoc) → String → SessionDoc → List (String × SessionDoc)
  | [], _, _ => []
  | p :: l, sid, d => if p.1 = sid then (sid, d) :: l else p :: replaceDoc l sid d

/-- createChatSession (part_001 lines 308-329): with an uninitialized
    client it logs and returns the empty string; otherwise addDoc inserts a
    fresh document with an empty messages array and status active, and a
    store rejection is rethrown by the catch. -/
def createChatSession (db : Bool) (fs : Firestore) (userId title : String) (now : Nat) :
    Except StoreErr (String × Firestore) :=
  if !db then .ok ("", fs)
  else if fs.fail then .error .store
  else .ok (fs.nextId,
    { fs with chat := fs.chat ++ [(fs.nextId, ⟨userId, title, some "active", [], now, now⟩)] })

/-- Ordering used by the getChatSessions query: later-updated first. -/
def sessGE (a b : String × SessionDoc) : Prop :=
  b.2.updatedAt ≤ a.2.updatedAt

instance : DecidableRel sessGE := fun _ _ => Nat.decLe _ _

instance : IsTotal (String × SessionDoc) sessGE :=
  ⟨fun a b => le_total b.2.updatedAt a.2.updatedAt⟩

instance : IsTrans (String × SessionDoc) sessGE :=
  ⟨fun _ _ _ hab hbc => le_trans hbc hab⟩

/-- The client-side status filter of getChatSessions: keep sessions with a
    falsy status or status active. -/
def statusKeep (d : SessionDoc) : Bool :=
  match d.status with
  | none => true
  | some s => s == "" || s == "active"

/-- getChatSessions (part_001 lines 331-342): the query filters on userId
    and orders by updatedAt descending (modelled by filter and sort, the
    documented semantics of the where and orderBy clauses), the client then
    filters on status.  There is no catch: a store rejection propagates,
    and a null client handle makes the SDK throw. -/
def getChatSessions (db : Bool) (fs : Firestore) (userId : String) :
    Except StoreErr (List (String × SessionDoc)) :=
  if !db then .error .notInitialized
  else if fs.fail then .error .store
  else .ok ((List.insertionSort sessGE
      (fs.chat.filter fun p => p.2.userId == userId)).filter fun p => statusKeep p.2)

/-- chartData sanitization on write: stringify a truthy chart payload,
    store null otherwise (part_001 line 408). -/
def sanitizeChart (stringify : Json → String) : Option Json → Option (String ⊕ Json)
  | some v => if jsTruthy v then some (.inl (stringify v)) else none
  | none => none

/-- tableData sanitization on write: stringify the nested data array, keep
    the other fields (part_001 lines 410-413). -/
def sanitizeTable (stringify : Json → String) : Option TableData → Option StoredTable
  | some tb => some ⟨.inl (stringify tb.data), tb.columns, tb.filename⟩
  | none => none

/-- addMessage (part_001 lines 388-455).  With an uninitialized client it
    returns the empty string.  When the session document exists, the
    sanitized message is appended to its messages array and the document is
    written back with a bumped updatedAt.  When it does not exist, the
    source's session-creation branch reads sanitizedMessage, a const that
    is block-scoped to the session-exists branch: evaluating the new
    message object raises a ReferenceError before setDoc runs, and the
    outer catch logs and rethrows it, so no document is written. -/
def addMessage (stringify : Json → String) (db : Bool) (fs : Firestore)
    (m : NewMessage) (mintedId : String) (now : Nat) :
    Except StoreErr (String × Firestore) :=
  if !db then .ok ("", fs)
  else if fs.fail then .error .store
  else
    match findDoc fs.chat m.sessionId with
    | some d =>
        let newMessage : StoredMessage :=
          ⟨mintedId, m.sessionId, m.userId, m.type, m.content,
            sanitizeChart stringify m.chartData, sanitizeTable stringify m.tableData, now⟩
        let newDoc : SessionDoc :=
          { d with messages := d.messages ++ [newMessage], updatedAt := now }
        .ok (mintedId, { fs with chat := replaceDoc fs.chat m.sessionId newDoc })
    | none => .error .referenceError

/-- The sanitized stored form of a new message (id plus spread of the
    sanitized fields plus timestamp). -/
def sanitizedStored (stringify : Json → String) (m : NewMessage) (mid : String)
    (now : Nat) : StoredMessage :=
  ⟨mid, m.sessionId, m.userId, m.type, m.content,
    sanitizeChart stringify m.chartData, sanitizeTable stringify m.tableData, now⟩

/-- A session document with the sanitized message appended and updatedAt
    bumped, as written back by addMessage. -/
def appendedDoc (stringify : Json → String) (d : SessionDoc) (m : NewMessage)
    (mid : String) (now : Nat) : SessionDoc :=
  { d with messages := d.messages ++ [sanitizedStored stringify m mid now], updatedAt := now }

/-- Per-message deserialization of getMessages (part_001 lines 478-526):
    a truthy string chartData is parsed, with null on parse failure; a
    truthy string table data field is parsed, keeping the original table
    payload on parse failure; falsy or absent payloads pass through. -/
def processStoredMessage (parse : String → Option Json) (sm : StoredMessage) : ProcMessage :=
  let chartData : Option Json :=
    match sm.chartData with
    | some v =>
        if storedTruthy v then
          match v with
          | .inl s => parse s
          | .inr j => some j
        else none
    | none => none
  let tableData : Option StoredTable :=
    match sm.tableData with
    | none => none
    | some tb =>
        if storedTruthy tb.data then
          match tb.data with
          | .inl s =>
              match parse s with
              | some j => some { tb with data := .inr j }
              | none => some tb
          | .inr _ => some tb
        else some tb
  ⟨sm.id, sm.sessionId, sm.userId, sm.type, sm.content, chartData, tableData, sm.timestamp⟩

/-- getMessages (part_001 lines 457-540): empty list when the client is
    uninitialized or the document is missing; the stored messages mapped
    through deserialization, in stored order, otherwise.  There is no
    catch around getDoc: a store rejection propagates. -/
def getMessages (parse : String → Option Json) (db : Bool) (fs : Firestore)
    (sessionId : String) : Except StoreErr (List ProcMessage) :=
  if !db then .ok []
  else if fs.fail then .error .store
  else
    match findDoc fs.chat sessionId with
    | some d => .ok (d.messages.map (processStoredMessage parse))
    | none => .ok []

/-- The store state after an adapter write: the updated store on success,
    the unchanged store when the operation raised. -/
def storeAfter (fs : Firestore) : Except StoreErr (String × Firestore) → Firestore
  | .ok p => p.2
  | .error _ => fs

/-! ## File upload orchestrator (handleFileUpload, ChatInterface.tsx
lines 1294-1434)

The two sequential upload steps (object storage, then backend) and the
follow-up store writes are external calls; their outcomes are passed in as
Except values.  The orchestrator state is the rendered message list and
the active-file reference (the uploadedFile React state). -/

/-- fileInfo attached to the upload success message. -/
structure FileInfo where
  filename : String
  fileSize : Nat
  fileType : String
  file_id : String

/-- A chat message as rendered by the upload flow. -/
structure UiMessage where
  id : String
  type : String
  content : String
  fileInfo : Option FileInfo
  tableData : Option TableData

/-- Result of the object-storage upload (firestoreService.uploadFile). -/
structure FileMetadata where
  id : String
  fileUrl : String

/-- Result of the backend upload (apiService.uploadFile). -/
structure FileUploadResponse where
  file_id : String
  filename : String
  file_size : Nat
  columns : List String
  row_count : Nat
  preview : Json

/-- The active-file reference (setUploadedFile payload, lines 1336-1344). -/
structure UploadedFile where
  file_id : String
  name : String
  size : Nat
  columns : List String
  rows : Nat
  preview : Json
  firebaseFileId : String

/-- Orchestrator state: rendered messages and the active-file reference. -/
structure UpState where
  messages : List UiMessage
  uploadedFile : Option UploadedFile

/-- The in-progress message appended when the upload starts. -/
def uploadStartMsg (startId : String) : UiMessage :=
  ⟨startId, "assistant", "파일을 업로드하고 분석하는 중입니다...", none, none⟩

/-- The error message the catch branch swaps in for the start message. -/
def uploadErrorMsg (startId e : String) : UiMessage :=
  ⟨startId, "assistant", "파일 업로드 중 오류가 발생했습니다: " ++ e, none, none⟩

/-- The success message carrying file metadata and the preview table. -/
def uploadSuccessMsg (startId : String) (ur : FileUploadResponse) : UiMessage :=
  ⟨startId, "assistant",
    "파일이 성공적으로 업로드되었습니다! (" ++ toString ur.row_count ++ "행, "
      ++ toString ur.columns.length ++ "컬럼)\n\n이제 데이터에 대해 질문해보세요.",
    some ⟨ur.filename, ur.file_size,
      if ur.filename.toLower.endsWith ".csv" then "csv" else "excel", ur.file_id⟩,
    some ⟨ur.preview, ur.columns, ur.filename⟩⟩

/-- The active-file reference built from the two upload results. -/
def mkUploadedFile (ur : FileUploadResponse) (fm : FileMetadata) : UploadedFile :=
  ⟨ur.file_id, ur.filename, ur.file_size, ur.columns, ur.row_count, ur.preview, fm.id⟩

/-- setMessages(prev.map(...)): replace every message whose id matches. -/
def replaceById (msgs : List UiMessage) (mid : String) (new : UiMessage) : List UiMessage :=
  msgs.map fun m0 => if m0.id = mid then new else m0

/-- The catch branch: swap the start message for the error message (the
    follow-up store write of the error message only logs on failure). -/
def uploadCatch (st : UpState) (startId e : String) : UpState :=
  { st with messages := replaceById st.messages startId (uploadErrorMsg startId e) }

/-- handleFileUpload after the session bootstrap: append the start message,
    run storage upload, backend upload, metadata update, success-message
    swap, message persistence and session update in order inside one try;
    any raising step jumps to the catch branch.  setUploadedFile runs
    directly after the backend upload succeeds. -/
def handleFileUpload (st : UpState) (startId : String) (sessionIsTemp : Bool)
    (storageRes : Except String FileMetadata) (backendRes : Except String FileUploadResponse)
    (metaRes addMsgRes updateSessRes : Except String Unit) : UpState :=
  let st1 : UpState := { st with messages := st.messages ++ [uploadStartMsg startId] }
  match storageRes with
  | .error e => uploadCatch st1 startId e
  | .ok fm =>
    match backendRes with
    | .error e => uploadCatch st1 startId e
    | .ok ur =>
      let st2 : UpState := { st1 with uploadedFile := some (mkUploadedFile ur fm) }
      match (if fm.id != "" then metaRes else .ok ()) with
      | .error e => uploadCatch st2 startId e
      | .ok _ =>
        let st3 : UpState :=
          { st2 with messages := replaceById st2.messages startId (uploadSuccessMsg startId ur) }
        match (if !sessionIsTemp then addMsgRes else .ok ()) with
        | .error e => uploadCatch st3 startId e
        | .ok _ =>
          match (if !sessionIsTemp then updateSessRes else .ok ()) with
          | .error e => uploadCatch st3 startId e
          | .ok _ => st3

/-! ## Concrete inputs for the witness theorems -/

/-- Witness codec: serializes the two witness payload shapes injectively;
    stands in for the JSON.stringify builtin at the witness values. -/
def stringifyW : Json → String
  | .num _ => "n"
  | _ => "a"

/-- Witness codec inverse at the witness values (JSON.parse stand-in). -/
def parseW : String → Option Json :=
  fun s => if s = "n" then some (.num 1) else some (.arr [.num 1])

/-- Witness session document. -/
def c4docW : SessionDoc := ⟨"u1", "t", some "active", [], 0, 0⟩

/-- Witness store holding one session. -/
def c4fsW : Firestore := ⟨[("s1", c4docW)], "id9", false⟩

/-- Witness message with chart and table payloads. -/
def c4mW : NewMessage :=
  ⟨"s1", "u1", "assistant", "hi", some (.num 1), some ⟨.arr [.num 1], ["a"], "f.csv"⟩⟩

/-- Witness sessions for the listing claim: same user active, same user
    with no status, same user soft-deleted, and another user. -/
def c5docA : SessionDoc := ⟨"u1", "ta", some "active", [], 0, 1⟩

def c5docB : SessionDoc := ⟨"u1", "tb", none, [], 0, 5⟩

def c5docC : SessionDoc := ⟨"u1", "tc", some "deleted", [], 0, 9⟩

def c5docD : SessionDoc := ⟨"u2", "td", some "active", [], 0, 7⟩

def c5fsW : Firestore :=
  ⟨[("a", c5docA), ("b", c5docB), ("c", c5docC), ("d", c5docD)], "n1", false⟩

-- (proof section follows after all definitions)

lemma msgStep_isSome {m : Msg} (c : Chunk) (h : m.codeExecution.isSome) :
    (msgStep m c).codeExecution.isSome := by
  obtain ⟨x, hx⟩ := Option.isSome_iff_exists.mp h
  cases c <;> simp [msgStep, processChunk, hx]
  case analysis_complete cd fq ce =>
    cases ce <;> simp
  case text_stream t =>
    split <;> simp [hx]

lemma processChunk_eq_of_isSome (m : Msg) (b : String) (c : Chunk)
    (h : m.codeExecution.isSome) :
    processChunk ⟨m, b⟩ c = ⟨msgStep m c, b ++ textOf c⟩ := by
  obtain ⟨x, hx⟩ := Option.isSome_iff_exists.mp h
  cases c <;> simp [processChunk, msgStep, textOf, hx, String.append_empty]
  case text_stream t =>
    split <;> simp

lemma runChunks_eq_of_isSome (cs : List Chunk) (m : Msg) (b : String)
    (h : m.codeExecution.isSome) :
    runChunks ⟨m, b⟩ cs = ⟨evolveMsg m cs, b ++ textConcat cs⟩ := by
  induction cs generalizing m b with
  | nil => simp [runChunks, evolveMsg, textConcat, String.append_empty]
  | cons c cs ih =>
      have step := processChunk_eq_of_isSome m b c h
      calc runChunks ⟨m, b⟩ (c :: cs)
          = runChunks (processChunk ⟨m, b⟩ c) cs := rfl
        _ = runChunks ⟨msgStep m c, b ++ textOf c⟩ cs := by rw [step]
        _ = ⟨evolveMsg (msgStep m c) cs, (b ++ textOf c) ++ textConcat cs⟩ :=
            ih (msgStep m c) (b ++ textOf c) (msgStep_isSome c h)
        _ = ⟨evolveMsg m (c :: cs), b ++ textConcat (c :: cs)⟩ := by
            simp [evolveMsg, textConcat, String.append_assoc]

lemma assemble_content (cs : List Chunk) :
    (assemble cs).content
      = (runChunks initState cs).msg.content ++ (runChunks initState cs).textBuffer := by
  simp only [assemble, finalFlush]
  split
  · rfl
  · next hb =>
      simp only [bne_iff_ne, ne_eq, not_not] at hb
      rw [hb, String.append_empty]

/-- C1: the claim says the final assembled content for a code-free stream
    equals the ordered concatenation of the text_stream chunk contents.
    Evaluating the embedded handler at the failing input, a single chunk
    with content Hi, shows the final content is the untouched placeholder
    followed by the chunk text twice: each text_stream is appended directly
    to the content and also accumulated into textBuffer, and the
    end-of-stream flush appends the whole buffer a second time. -/
theorem c1_code_free_stream_text_duplicated :
    (assemble [Chunk.text_stream "Hi"]).content = "처리 중...HiHi" ∧
    (assemble [Chunk.text_stream "Hi"]).content ≠ "Hi" := by
  exact ⟨by decide, by decide⟩

/-- C2: on the chunk order analysis_start, code_complete_display,
    code_execution_result, text_stream Done, analysis_complete, the
    placeholder is indeed replaced and the code block ends not executing,
    but the final text is DoneDone, not Done: the text appended after the
    execution result is also kept in textBuffer, which the end-of-stream
    flush appends again (analysis_complete does not clear the buffer when a
    code block is present). -/
theorem c2_fixed_sequence_text_duplicated :
    (assemble [Chunk.analysis_start "분석 시작", Chunk.code_complete_display "x = 1",
        Chunk.code_execution_result "ok", Chunk.text_stream "Done",
        Chunk.analysis_complete none none none]).content = "DoneDone" ∧
    (assemble [Chunk.analysis_start "분석 시작", Chunk.code_complete_display "x = 1",
        Chunk.code_execution_result "ok", Chunk.text_stream "Done",
        Chunk.analysis_complete none none none]).content ≠ "Done" ∧
    (assemble [Chunk.analysis_start "분석 시작", Chunk.code_complete_display "x = 1",
        Chunk.code_execution_result "ok", Chunk.text_stream "Done",
        Chunk.analysis_complete none none none]).content ≠ "처리 중..." ∧
    ((assemble [Chunk.analysis_start "분석 시작", Chunk.code_complete_display "x = 1",
        Chunk.code_execution_result "ok", Chunk.text_stream "Done",
        Chunk.analysis_complete none none none]).codeExecution.map
      fun ce => ce.isExecuting) = some false := by
  refine ⟨by decide, by decide, by decide, by decide⟩

/-- C3: a text_stream chunk arriving while the code block is executing is
    buffered and not appended or dropped: the step leaves the message
    unchanged and extends textBuffer by the chunk text, and the final
    content decomposes as a left part, the pre-existing buffer, the chunk
    text, and the texts of the later chunks, where the flanking parts are
    built only from pre and post.  Since the decomposition holds with the
    same flanking parts for every value of the chunk text, the buffered
    text occurs in the final content exactly once, appended when the
    stream completes. -/
theorem c3_executing_text_buffered_once (pre post : List Chunk) (t : String)
    (hx : executing (runChunks initState pre).msg = true) :
    (processChunk (runChunks initState pre) (Chunk.text_stream t)).msg
        = (runChunks initState pre).msg ∧
    (processChunk (runChunks initState pre) (Chunk.text_stream t)).textBuffer
        = (runChunks initState pre).textBuffer ++ t ∧
    (assemble (pre ++ Chunk.text_stream t :: post)).content
        = (evolveMsg (runChunks initState pre).msg post).content
          ++ ((runChunks initState pre).textBuffer ++ (t ++ textConcat post)) := by
  set s1 := runChunks initState pre with hs1
  obtain ⟨ce, hce, hexec⟩ :
      ∃ ce, s1.msg.codeExecution = some ce ∧ ce.isExecuting = true := by
    unfold executing at hx
    cases h : s1.msg.codeExecution with
    | none => rw [h] at hx; exact absurd hx (by simp)
    | some ce => exact ⟨ce, rfl, by rw [h] at hx; exact hx⟩
  have hcan : canAddText s1.msg = false := by
    simp [canAddText, hce, hexec]
  have hstep : processChunk s1 (Chunk.text_stream t) = ⟨s1.msg, s1.textBuffer ++ t⟩ := by
    simp [processChunk, hcan]
  refine ⟨by rw [hstep], by rw [hstep], ?_⟩
  have hsome : s1.msg.codeExecution.isSome := by simp [hce]
  have hrun : runChunks initState (pre ++ Chunk.text_stream t :: post)
      = ⟨evolveMsg s1.msg post, (s1.textBuffer ++ t) ++ textConcat post⟩ := by
    have h1 : runChunks initState (pre ++ Chunk.text_stream t :: post)
        = runChunks (processChunk s1 (Chunk.text_stream t)) post := by
      simp [runChunks, hs1, List.foldl_append]
    rw [h1, hstep]
    exact runChunks_eq_of_isSome post s1.msg (s1.textBuffer ++ t) hsome
  rw [assemble_content, hrun]
  simp [String.append_assoc]

/-- C8: processing a text_stream chunk never changes the chartData or
    codeExecution fields of the message, whatever the current state; in
    particular values set by the terminal chunks chart_generated,
    code_complete_display and code_execution_result are not overwritten
    by later text deltas. -/
theorem c8_text_stream_preserves_chart_and_code (s : AState) (t : String) :
    (processChunk s (Chunk.text_stream t)).msg.chartData = s.msg.chartData ∧
    (processChunk s (Chunk.text_stream t)).msg.codeExecution = s.msg.codeExecution := by
  constructor <;> (simp only [processChunk]; split <;> rfl)

/-- Witness for C3 at a concrete stream: code_complete_display installs an
    executing code block, the buffered hello is flushed exactly once at end
    of stream, and the final content is hello. -/
theorem c3_witness :
    executing (runChunks initState [Chunk.code_complete_display "x = 1"]).msg = true ∧
    (assemble ([Chunk.code_complete_display "x = 1"]
        ++ Chunk.text_stream "hello" :: [Chunk.code_execution_result "ok"])).content
      = (evolveMsg (runChunks initState [Chunk.code_complete_display "x = 1"]).msg
            [Chunk.code_execution_result "ok"]).content
        ++ ((runChunks initState [Chunk.code_complete_display "x = 1"]).textBuffer
            ++ ("hello" ++ textConcat [Chunk.code_execution_result "ok"])) ∧
    (assemble ([Chunk.code_complete_display "x = 1"]
        ++ Chunk.text_stream "hello" :: [Chunk.code_execution_result "ok"])).content
      = "hello" :=
  ⟨by decide,
   (c3_executing_text_buffered_once [Chunk.code_complete_display "x = 1"]
      [Chunk.code_execution_result "ok"] "hello" (by decide)).2.2,
   by decide⟩

lemma findDoc_replaceDoc_self (l : List (String × SessionDoc)) (sid : String)
    (d0 d : SessionDoc) (h : findDoc l sid = some d0) :
    findDoc (replaceDoc l sid d) sid = some d := by
  induction l with
  | nil => simp [findDoc] at h
  | cons p l ih =>
      by_cases hp : p.1 = sid
      · simp [findDoc, replaceDoc, hp]
      · simp [findDoc, replaceDoc, hp] at h ⊢
        exact ih h

lemma replaceById_append_fresh (msgs : List UiMessage) (startId : String)
    (new : UiMessage) (h : ∀ m0 ∈ msgs, m0.id ≠ startId) :
    replaceById (msgs ++ [uploadStartMsg startId]) startId new = msgs ++ [new] := by
  induction msgs with
  | nil => simp [replaceById, uploadStartMsg]
  | cons m ms ih =>
      have hm : m.id ≠ startId := h m (List.mem_cons_self m ms)
      have hms : ∀ m0 ∈ ms, m0.id ≠ startId := fun m0 hm0 => h m0 (List.mem_cons_of_mem m hm0)
      simpa [replaceById, hm] using ih hms

/-- C4: when the session document exists and the store write succeeds,
    addMessage stringifies the truthy chart payload and the nested table
    data, and getMessages on the resulting store parses them back: under
    the round-trip contract of the JSON builtins at the two stored values,
    the returned list is the previously stored messages, in order, followed
    by the new message whose chart and table payloads are structurally
    equal to the ones passed in. -/
theorem c4_round_trip_chart_table (stringify : Json → String) (parse : String → Option Json)
    (fs : Firestore) (d : SessionDoc) (m : NewMessage) (mid : String) (now : Nat)
    (c : Json) (tb : TableData)
    (hfail : fs.fail = false)
    (hdoc : findDoc fs.chat m.sessionId = some d)
    (hc : m.chartData = some c) (ht : m.tableData = some tb)
    (hct : jsTruthy c = true)
    (hcs : stringify c ≠ "")
    (hts : stringify tb.data ≠ "")
    (hcr : parse (stringify c) = some c)
    (htr : parse (stringify tb.data) = some tb.data) :
    (addMessage stringify true fs m mid now).isOk = true ∧
    getMessages parse true (storeAfter fs (addMessage stringify true fs m mid now)) m.sessionId
      = .ok (d.messages.map (processStoredMessage parse)
          ++ [⟨mid, m.sessionId, m.userId, m.type, m.content, some c,
               some ⟨Sum.inr tb.data, tb.columns, tb.filename⟩, now⟩]) := by
  have hadd : addMessage stringify true fs m mid now
      = .ok (mid, { fs with
          chat := replaceDoc fs.chat m.sessionId (appendedDoc stringify d m mid now) }) := by
    simp [addMessage, hfail, hdoc, appendedDoc, sanitizedStored]
  refine ⟨by rw [hadd]; rfl, ?_⟩
  rw [hadd]
  have hfind := findDoc_replaceDoc_self fs.chat m.sessionId d
      (appendedDoc stringify d m mid now) hdoc
  simp only [getMessages, storeAfter, hfail, Bool.not_true, Bool.false_eq_true,
    if_false, hfind]
  simp only [appendedDoc, List.map_append, List.map_cons, List.map_nil]
  congr 1
  simp [processStoredMessage, sanitizedStored, sanitizeChart, sanitizeTable,
    hc, ht, hct, storedTruthy, hcs, hts, hcr, htr]

/-- Witness for C4: a one-session store, a message carrying a numeric chart
    payload and a nested-array table payload, and the witness codec; the
    added message comes back with both payloads intact. -/
theorem c4_witness :
    (addMessage stringifyW true c4fsW c4mW "m1" 5).isOk = true ∧
    getMessages parseW true (storeAfter c4fsW (addMessage stringifyW true c4fsW c4mW "m1" 5)) "s1"
      = .ok [⟨"m1", "s1", "u1", "assistant", "hi", some (.num 1),
             some ⟨Sum.inr (.arr [.num 1]), ["a"], "f.csv"⟩, 5⟩] := by
  have h := c4_round_trip_chart_table stringifyW parseW c4fsW c4docW c4mW "m1" 5
    (.num 1) ⟨.arr [.num 1], ["a"], "f.csv"⟩ rfl rfl rfl rfl (by decide)
    (by decide) (by decide) rfl rfl
  exact ⟨h.1, by have h2 := h.2; simpa [c4docW] using h2⟩

/-- C5: whenever getChatSessions returns a list, every element is a stored
    session of the requested user whose status is not deleted (the client
    filter keeps only falsy or active statuses), and the list is ordered by
    updatedAt descending. -/
theorem c5_sessions_filtered_sorted (db : Bool) (fs : Firestore) (u : String)
    (l : List (String × SessionDoc))
    (h : getChatSessions db fs u = .ok l) :
    (∀ p ∈ l, p ∈ fs.chat ∧ p.2.userId = u ∧ p.2.status ≠ some "deleted") ∧
    List.Pairwise sessGE l := by
  have hl : l = (List.insertionSort sessGE
      (fs.chat.filter fun p => p.2.userId == u)).filter fun p => statusKeep p.2 := by
    unfold getChatSessions at h
    split at h
    · simp at h
    · split at h
      · simp at h
      · simp only [Except.ok.injEq] at h
        exact h.symm
  subst hl
  constructor
  · intro p hp
    have hp1 := List.mem_filter.mp hp
    have hp2 : p ∈ fs.chat.filter fun p => p.2.userId == u :=
      (List.perm_insertionSort sessGE _).mem_iff.mp hp1.1
    have hp3 := List.mem_filter.mp hp2
    refine ⟨hp3.1, by simpa using hp3.2, ?_⟩
    have hkeep := hp1.2
    unfold statusKeep at hkeep
    cases hst : p.2.status with
    | none => simp [hst]
    | some s =>
        rw [hst] at hkeep
        simp only [Bool.or_eq_true, beq_iff_eq] at hkeep
        rcases hkeep with hk | hk <;> simp [hst, hk]
  · exact List.Pairwise.sublist (List.filter_sublist _) (List.sorted_insertionSort sessGE _)

/-- Witness for C5: on a store holding an active, a status-less, a
    soft-deleted and a foreign-user session, the returned head is a stored
    session of the requested user, not deleted, and the returned list is
    sorted by updatedAt descending. -/
theorem c5_witness :
    (("b", c5docB) ∈ c5fsW.chat ∧ c5docB.userId = "u1" ∧ c5docB.status ≠ some "deleted") ∧
    List.Pairwise sessGE [("b", c5docB), ("a", c5docA)] := by
  have h := c5_sessions_filtered_sorted true c5fsW "u1" [("b", c5docB), ("a", c5docA)] rfl
  exact ⟨h.1 ("b", c5docB) (List.mem_cons_self _ _), h.2⟩

/-- C6 counterexample: with the module-level client handle uninitialized,
    createChatSession returns the empty string and leaves the store
    untouched, raising nothing: it neither inserts a record and returns a
    store-generated id nor propagates an error, so the create path can fail
    silently, contrary to the claim. -/
theorem c6_counterexample_silent_empty_id :
    createChatSession false ⟨[], "id1", false⟩ "u1" "New Chat" 0
      = .ok ("", ⟨[], "id1", false⟩) := rfl

/-- C6 amended: when the store client is initialized, createChatSession
    either propagates the store error or inserts a fresh document with an
    empty messages array and active status and returns the store-generated
    id; only with an uninitialized client does it return the empty string
    without inserting or raising. -/
theorem c6_amended_create_session (fs : Firestore) (u t : String) (now : Nat) :
    (fs.fail = true → createChatSession true fs u t now = .error .store) ∧
    (fs.fail = false → createChatSession true fs u t now
      = .ok (fs.nextId, { fs with
          chat := fs.chat ++ [(fs.nextId, ⟨u, t, some "active", [], now, now⟩)] })) := by
  constructor
  · intro hfail
    simp [createChatSession, hfail]
  · intro hok
    simp [createChatSession, hok]

/-- Witness for C6 amended: a rejecting store propagates, a working store
    returns the minted id with the inserted empty-session document. -/
theorem c6_witness :
    createChatSession true ⟨[], "id1", true⟩ "u1" "t" 0 = .error .store ∧
    createChatSession true ⟨[], "id1", false⟩ "u1" "t" 0
      = .ok ("id1", ⟨[("id1", ⟨"u1", "t", some "active", [], 0, 0⟩)], "id1", false⟩) := by
  refine ⟨(c6_amended_create_session ⟨[], "id1", true⟩ "u1" "t" 0).1 rfl, ?_⟩
  rw [(c6_amended_create_session ⟨[], "id1", false⟩ "u1" "t" 0).2 rfl]
  rfl

/-- C7 counterexample: when the underlying store operation fails, both read
    operations propagate the error to the caller instead of degrading to an
    empty result: getChatSessions has no catch at all, and getMessages only
    guards against an uninitialized client, not a rejected read. -/
theorem c7_counterexample_read_error_propagates :
    getChatSessions true ⟨[], "n1", true⟩ "u1" = .error .store ∧
    getMessages (fun _ => none) true ⟨[], "n1", true⟩ "s1" = .error .store :=
  ⟨rfl, rfl⟩

/-- C7 amended: store failures in getChatSessions and getMessages propagate
    to the caller; getMessages returns an empty list exactly when the
    client handle is uninitialized or the session document is missing. -/
theorem c7_amended_error_policy (parse : String → Option Json) (fs : Firestore)
    (u sid : String) :
    (fs.fail = true → getChatSessions true fs u = .error .store ∧
      getMessages parse true fs sid = .error .store) ∧
    getMessages parse false fs sid = .ok [] ∧
    (fs.fail = false → findDoc fs.chat sid = none → getMessages parse true fs sid = .ok []) := by
  refine ⟨fun hfail => ⟨?_, ?_⟩, ?_, fun hok hmiss => ?_⟩
  · simp [getChatSessions, hfail]
  · simp [getMessages, hfail]
  · simp [getMessages]
  · simp [getMessages, hok, hmiss]

/-- Witness for C7 amended at concrete stores: a rejecting store makes both
    reads propagate, an uninitialized client or a missing document yields
    the empty list. -/
theorem c7_witness :
    getChatSessions true ⟨[], "n1", true⟩ "u2" = .error .store ∧
    getMessages (fun _ => none) true ⟨[], "n1", true⟩ "s2" = .error .store ∧
    getMessages (fun _ => none) false ⟨[], "n1", true⟩ "s2" = .ok [] ∧
    getMessages (fun _ => none) true ⟨[], "n1", false⟩ "s2" = .ok [] := by
  have h1 := (c7_amended_error_policy (fun _ => none) ⟨[], "n1", true⟩ "u2" "s2").1 rfl
  have h2 := (c7_amended_error_policy (fun _ => none) ⟨[], "n1", true⟩ "u2" "s2").2.1
  have h3 := (c7_amended_error_policy (fun _ => none) ⟨[], "n1", false⟩ "u2" "s2").2.2 rfl rfl
  exact ⟨h1.1, h1.2, h2, h3⟩

/-- C9: if the object-storage upload or the backend upload fails, the
    orchestrator replaces the in-progress message with a message carrying
    the error text, and the active-file reference is exactly what it was
    before the upload: the failed upload never becomes the active file, and
    if no file was active none becomes active. -/
theorem c9_upload_failure_leaves_file_unset (st : UpState) (startId : String)
    (sessionIsTemp : Bool)
    (storageRes : Except String FileMetadata) (backendRes : Except String FileUploadResponse)
    (metaRes addMsgRes updateSessRes : Except String Unit) (e : String)
    (hfresh : ∀ m0 ∈ st.messages, m0.id ≠ startId)
    (hfail : storageRes = .error e ∨ ((∃ fm, storageRes = .ok fm) ∧ backendRes = .error e)) :
    (handleFileUpload st startId sessionIsTemp storageRes backendRes
        metaRes addMsgRes updateSessRes).uploadedFile = st.uploadedFile ∧
    (handleFileUpload st startId sessionIsTemp storageRes backendRes
        metaRes addMsgRes updateSessRes).messages
      = st.messages ++ [uploadErrorMsg startId e] ∧
    (uploadErrorMsg startId e).content = "파일 업로드 중 오류가 발생했습니다: " ++ e := by
  have hrep := replaceById_append_fresh st.messages startId (uploadErrorMsg startId e) hfresh
  rcases hfail with hs | ⟨⟨fm, hs⟩, hb⟩
  · subst hs
    exact ⟨rfl, by simpa [handleFileUpload, uploadCatch] using hrep, rfl⟩
  · subst hs; subst hb
    exact ⟨rfl, by simpa [handleFileUpload, uploadCatch] using hrep, rfl⟩

/-- Witness for C9: with no prior messages and no active file, a failing
    storage upload yields exactly the error message and no active file. -/
theorem c9_witness :
    (handleFileUpload ⟨[], none⟩ "7" false (.error "boom")
        (.error "unused") (.ok ()) (.ok ()) (.ok ())).uploadedFile = none ∧
    (handleFileUpload ⟨[], none⟩ "7" false (.error "boom")
        (.error "unused") (.ok ()) (.ok ()) (.ok ())).messages
      = [uploadErrorMsg "7" "boom"] ∧
    (uploadErrorMsg "7" "boom").content = "파일 업로드 중 오류가 발생했습니다: boom" := by
  have h := c9_upload_failure_leaves_file_unset ⟨[], none⟩ "7" false (.error "boom")
    (.error "unused") (.ok ()) (.ok ()) (.ok ()) "boom" (by simp) (Or.inl rfl)
  exact ⟨h.1, by simpa using h.2.1, h.2.2⟩

/-- C10: calling addMessage for a session id with no stored record does not
    create a New Chat session holding the message: the session-creation
    branch references the sanitizedMessage const that is block-scoped to
    the session-exists branch, so the call raises a ReferenceError (logged
    and rethrown by the catch), nothing is written, and a subsequent
    getMessages still returns the empty list. -/
theorem c10_missing_session_reference_error :
    addMessage (fun _ => "x") true ⟨[], "id1", false⟩
        ⟨"s1", "u1", "assistant", "hi", none, none⟩ "m7" 3 = .error .referenceError ∧
    getMessages (fun _ => none) true ⟨[], "id1", false⟩ "s1" = .ok [] :=
  ⟨rfl, rfl⟩

end Afterwon

